import Mathlib

/-!
Shallow embedding of the chat-room core of `app.py` (the `Notifier` class and
the `websocket_endpoint` session loop).

Conventions of the embedding:
* A websocket connection is identified by a natural number (`Conn`).
* `Notifier.connections` is Python's `defaultdict(dict)`: an insertion-ordered
  dictionary, modelled as an association list.  Subscripting a missing key
  inserts the default value `{}`; the value stored under a room is therefore
  either the fresh empty dict (`Entry.edict`) or a member list (`Entry.elist`).
* The outcome of `await websocket.send_text(...)` for a given connection is a
  parameter `sendOk : Conn → Bool`; `sendOk c = false` means the send raises.
* Python exceptions are surfaced as `Option` error components: `some e` means
  the operation raised `e` and the paired state is the registry at that moment
  (mutations performed before the raise are kept, as in Python).
-/

set_option autoImplicit false

namespace ChatApp

/-- A websocket connection identifier. -/
abbrev Conn := Nat

/-- A room name. -/
abbrev RoomName := String

/-- A value stored in `self.connections` under a room name: either the fresh
`defaultdict` default `{}` (never subsequently populated as a dict) or the
member list that `connect` installs. -/
inductive Entry where
  | edict
  | elist (l : List Conn)
deriving DecidableEq

/-- The member sequence held by an entry: the empty dict has no elements. -/
def Entry.members : Entry → List Conn
  | .edict => []
  | .elist l => l

/-- Python exceptions that the registry operations can raise. -/
inductive PyErr where
  | valueError
  | attributeError
deriving DecidableEq

/-- The state of the `Notifier` singleton: the `self.connections`
`defaultdict(dict)`, as an insertion-ordered association list. -/
structure Notifier where
  connections : List (RoomName × Entry)
deriving DecidableEq

/-- First-match lookup in the association list, as Python dict lookup. -/
def lookupAssoc : List (RoomName × Entry) → RoomName → Option Entry
  | [], _ => none
  | (r', e) :: t, r => if r' = r then some e else lookupAssoc t r

/-- Replace the entry stored under `r`, or append it if absent. -/
def setAssoc : List (RoomName × Entry) → RoomName → Entry → List (RoomName × Entry)
  | [], r, e => [(r, e)]
  | (r', e') :: t, r, e => if r' = r then (r, e) :: t else (r', e') :: setAssoc t r e

/-- `self.connections[room_name] = entry`. -/
def setEntry (s : Notifier) (r : RoomName) (e : Entry) : Notifier :=
  ⟨setAssoc s.connections r e⟩

/-- `self.connections[room_name]` on the `defaultdict`: returns the stored
entry, inserting (and returning) the default `{}` when the key is missing.
The second component is the possibly-extended registry. -/
def getItem (s : Notifier) (r : RoomName) : Entry × Notifier :=
  match lookupAssoc s.connections r with
  | some e => (e, s)
  | none => (Entry.edict, ⟨s.connections ++ [(r, Entry.edict)]⟩)

/-- Pure observation of a room's member sequence (no `defaultdict` insertion);
used to state properties. -/
def membersOf (s : Notifier) (r : RoomName) : List Conn :=
  match lookupAssoc s.connections r with
  | some e => e.members
  | none => []

/-- `Notifier.get_members`: `try: return self.connections[room_name] except:
return None`.  Subscripting a `defaultdict` with a hashable key cannot raise,
so the `except Exception: return None` branch is dead code; the embedding
returns `some` entry together with the possibly-extended registry. -/
def Notifier.get_members (s : Notifier) (r : RoomName) : Option Entry × Notifier :=
  let p := getItem s r
  (some p.1, p.2)

/-- `Notifier.connect` (minus the transport-level `websocket.accept()`):
if the stored value `== {}` or has length 0 it is replaced by `[]`, then the
websocket is appended unconditionally. -/
def Notifier.connect (s : Notifier) (c : Conn) (r : RoomName) : Notifier :=
  let p := getItem s r
  let base : List Conn :=
    match p.1 with
    | .edict => []
    | .elist l => if l.length = 0 then [] else l
  setEntry p.2 r (.elist (base ++ [c]))

/-- `Notifier.remove`: `self.connections[room_name].remove(websocket)`.
A never-joined room holds the dict `{}`, which has no `remove` attribute
(`AttributeError`); `list.remove` of an absent element raises `ValueError`;
otherwise the first occurrence is deleted. -/
def Notifier.remove (s : Notifier) (c : Conn) (r : RoomName) : Option PyErr × Notifier :=
  let p := getItem s r
  match p.1 with
  | .edict => (some .attributeError, p.2)
  | .elist l =>
    if c ∈ l then (none, setEntry p.2 r (.elist (l.erase c)))
    else (some .valueError, p.2)

/-- Outcome of the `while` loop of `Notifier._notify`:
`err` is the connection whose `send_text` raised (if any), `members` the list
that `self.connections[room_name]` holds afterwards, `delivered` the
connections whose send succeeded, in delivery order. -/
structure NotifyOut where
  err : Option Conn
  members : List Conn
  delivered : List Conn
deriving DecidableEq

/-- The loop of `_notify`, processing connections in pop order (`list.pop`
takes the last element).  `living` is `living_connections`; on a send failure
the exception propagates: the state left behind is the partially-popped list
(`rest`, put back in stored order) and `living_connections` is discarded. -/
def notifyAux (sendOk : Conn → Bool) : List Conn → List Conn → List Conn → NotifyOut
  | [], living, delivered => ⟨none, living, delivered⟩
  | c :: rest, living, delivered =>
    if sendOk c then notifyAux sendOk rest (living ++ [c]) (delivered ++ [c])
    else ⟨some c, rest.reverse, delivered⟩

/-- `_notify`'s effect on one stored member list: pop from the end until empty
or a send raises, then (on normal exit) store `living_connections`. -/
def notifyRoom (sendOk : Conn → Bool) (l : List Conn) : NotifyOut :=
  notifyAux sendOk l.reverse [] []

/-- `Notifier._notify(message, room_name)`: runs the pop/send loop on the
room's entry and writes the surviving list back (the write-back on line
`self.connections[room_name] = living_connections` only happens when no send
raised; on a raise the entry already holds the partially-popped list).
Returns (raised send failure, delivered connections, new state). -/
def Notifier.notify (s : Notifier) (r : RoomName) (sendOk : Conn → Bool) :
    Option Conn × List Conn × Notifier :=
  let p := getItem s r
  let out := notifyRoom sendOk p.1.members
  (out.err, out.delivered, setEntry p.2 r (.elist out.members))

/-- `Notifier.push`: wraps the message into `message_body` and drives the
notification generator, which immediately calls `_notify(msg, room_name)`.
Its registry effect is exactly that of `_notify`. -/
def Notifier.push (s : Notifier) (_msg : String) (r : RoomName) (sendOk : Conn → Bool) :
    Option Conn × List Conn × Notifier :=
  Notifier.notify s r sendOk

/-- An inbound JSON payload `d` as the session loop reads it:
`d["message"]`, `d["sender"]`, and the (possibly absent) `d["room_name"]`
field, which the loop overwrites with the path parameter. -/
structure Inbound where
  message : String
  sender : String
  room_name : Option String
deriving DecidableEq

/-- Observable calls made by one iteration of the session loop, in order. -/
inductive Event where
  | store (message sender room : String)
  | broadcast (payload room : String)
deriving DecidableEq

/-- Lines 193–196 of the session loop: `room_members` is computed by the
conditional expression (which calls `get_members` twice: once for the
`is not None` test, once for the value), and if the websocket is not found
among the members, `connect` is called again. -/
def selfHeal (s : Notifier) (ws : Conn) (room : RoomName) : Notifier :=
  let p1 := s.get_members room
  let p2 := p1.2.get_members room
  let room_members : List Conn :=
    if p1.1.isSome then
      match p2.1 with
      | some e => e.members
      | none => []
    else []
  if ws ∈ room_members then p2.2 else p2.2.connect ws room

/-- Result of one iteration of the `while True` body of `websocket_endpoint`. -/
structure IterOut where
  state : Notifier
  events : List Event
  delivered : List Conn
  err : Option Conn
deriving DecidableEq

/-- One iteration of the session loop (lines 187–199): receive `data`, parse
it to `d`, set `d["room_name"] = room_name`, run the self-heal membership
check, call `insert_message(d["message"], d["sender"], d["room_name"])`, and
broadcast the raw `data` string via `push`. -/
def sessionIteration (s : Notifier) (ws : Conn) (room : RoomName) (data : String)
    (d : Inbound) (sendOk : Conn → Bool) : IterOut :=
  let d1 : Inbound := { d with room_name := some room }
  let storeRoom : String :=
    match d1.room_name with
    | some x => x
    | none => ""
  let s1 := selfHeal s ws room
  let out := s1.push data room sendOk
  { state := out.2.2
    events := [Event.store d1.message d1.sender storeRoom, Event.broadcast data room]
    delivered := out.2.1
    err := out.1 }

/-- The `except WebSocketDisconnect` handler of the session loop:
`notifier.remove(websocket, room_name)`. -/
def sessionDisconnect (s : Notifier) (ws : Conn) (room : RoomName) : Option PyErr × Notifier :=
  Notifier.remove s ws room

/-- A sequence of broadcasts to room `r` (each with its own message and send
outcomes), returning the final state and every connection that received a
delivery in any of them. -/
def runBroadcasts (s : Notifier) (r : RoomName) :
    List (String × (Conn → Bool)) → Notifier × List Conn
  | [] => (s, [])
  | (msg, ok) :: rest =>
    let out := s.push msg r ok
    let tail := runBroadcasts out.2.2 r rest
    (tail.1, out.2.1 ++ tail.2)

/-! ### Basic registry lemmas -/

theorem lookup_setAssoc_self (l : List (RoomName × Entry)) (r : RoomName) (e : Entry) :
    lookupAssoc (setAssoc l r e) r = some e := by
  induction l with
  | nil => simp [setAssoc, lookupAssoc]
  | cons hd t ih =>
    cases hd with
    | mk r' e' =>
      by_cases h : r' = r
      · simp [setAssoc, lookupAssoc, h]
      · simp [setAssoc, lookupAssoc, h, ih]

theorem lookup_setAssoc_ne (l : List (RoomName × Entry)) (r r' : RoomName) (e : Entry)
    (h : r' ≠ r) : lookupAssoc (setAssoc l r e) r' = lookupAssoc l r' := by
  induction l with
  | nil => simp [setAssoc, lookupAssoc, Ne.symm h]
  | cons hd t ih =>
    cases hd with
    | mk r₀ e₀ =>
      by_cases h₀ : r₀ = r
      · subst h₀
        simp [setAssoc, lookupAssoc, Ne.symm h]
      · simp [setAssoc, lookupAssoc, h₀, ih]

theorem lookup_append_single (l : List (RoomName × Entry)) (r : RoomName) (e : Entry)
    (h : lookupAssoc l r = none) : lookupAssoc (l ++ [(r, e)]) r = some e := by
  induction l with
  | nil => simp [lookupAssoc]
  | cons hd t ih =>
    cases hd with
    | mk r₀ e₀ =>
      by_cases h₀ : r₀ = r
      · simp [lookupAssoc, h₀] at h
      · simp [lookupAssoc, h₀] at h ⊢
        exact ih h

theorem getItem_fst_members (s : Notifier) (r : RoomName) :
    (getItem s r).1.members = membersOf s r := by
  unfold getItem membersOf
  cases lookupAssoc s.connections r <;> simp [Entry.members]

theorem getItem_snd_lookup (s : Notifier) (r : RoomName) :
    lookupAssoc (getItem s r).2.connections r = some (getItem s r).1 := by
  unfold getItem
  cases h : lookupAssoc s.connections r with
  | some e => simpa using h
  | none => simpa using lookup_append_single s.connections r Entry.edict h

theorem getItem_snd_lookup_ne (s : Notifier) (r r' : RoomName) (h : r' ≠ r) :
    lookupAssoc (getItem s r).2.connections r' = lookupAssoc s.connections r' := by
  unfold getItem
  cases h₀ : lookupAssoc s.connections r with
  | some e => simp
  | none =>
    simp only
    induction s.connections with
    | nil => simp [lookupAssoc, Ne.symm h]
    | cons hd t ih =>
      cases hd with
      | mk r₀ e₀ =>
        by_cases hr : r₀ = r'
        · simp [lookupAssoc, hr]
        · simp [lookupAssoc, hr] at ih ⊢
          exact ih

theorem membersOf_setEntry_self (s : Notifier) (r : RoomName) (L : List Conn) :
    membersOf (setEntry s r (.elist L)) r = L := by
  unfold membersOf setEntry
  simp [lookup_setAssoc_self, Entry.members]

theorem connect_members (s : Notifier) (c : Conn) (r : RoomName) :
    membersOf (s.connect c r) r = membersOf s r ++ [c] := by
  unfold Notifier.connect
  rw [membersOf_setEntry_self]
  rw [← getItem_fst_members]
  cases h : (getItem s r).1 with
  | edict => simp [Entry.members]
  | elist l =>
    by_cases hl : l.length = 0
    · simp [Entry.members, hl, List.length_eq_zero.mp hl]
    · simp [Entry.members, hl]

/-! ### `_notify` loop lemmas -/

theorem notifyAux_ok_run (ok : Conn → Bool) (p : List Conn) (hp : ∀ c ∈ p, ok c = true)
    (rest living delivered : List Conn) :
    notifyAux ok (p ++ rest) living delivered
      = notifyAux ok rest (living ++ p) (delivered ++ p) := by
  induction p generalizing living delivered with
  | nil => simp
  | cons c t ih =>
    have hc : ok c = true := hp c (List.mem_cons_self c t)
    have ht : ∀ x ∈ t, ok x = true := fun x hx => hp x (List.mem_cons_of_mem c hx)
    simp only [List.cons_append, notifyAux, hc, if_pos, List.append_eq]
    rw [ih ht]
    simp

theorem notifyAux_all_ok (ok : Conn → Bool) (l : List Conn) (h : ∀ c ∈ l, ok c = true)
    (living delivered : List Conn) :
    notifyAux ok l living delivered = ⟨none, living ++ l, delivered ++ l⟩ := by
  have := notifyAux_ok_run ok l h [] living delivered
  simpa [notifyAux] using this

theorem notify_spec_ok (s : Notifier) (r : RoomName) (ok : Conn → Bool)
    (h : ∀ c ∈ membersOf s r, ok c = true) :
    (s.notify r ok).1 = none ∧
    (s.notify r ok).2.1 = (membersOf s r).reverse ∧
    membersOf (s.notify r ok).2.2 r = (membersOf s r).reverse := by
  simp only [Notifier.notify, notifyRoom]
  rw [getItem_fst_members]
  have hrev : ∀ c ∈ (membersOf s r).reverse, ok c = true := by
    intro c hc
    exact h c (List.mem_reverse.mp hc)
  rw [notifyAux_all_ok ok (membersOf s r).reverse hrev [] []]
  refine ⟨rfl, by simp, ?_⟩
  simpa using membersOf_setEntry_self (getItem s r).2 r (membersOf s r).reverse

theorem notify_spec_fail (s : Notifier) (r : RoomName) (ok : Conn → Bool)
    (pre suf : List Conn) (f : Conn)
    (hsplit : membersOf s r = pre ++ f :: suf)
    (hsuf : ∀ c ∈ suf, ok c = true) (hf : ok f = false) :
    (s.notify r ok).1 = some f ∧
    (s.notify r ok).2.1 = suf.reverse ∧
    membersOf (s.notify r ok).2.2 r = pre := by
  simp only [Notifier.notify, notifyRoom]
  rw [getItem_fst_members, hsplit]
  have hrevsplit : (pre ++ f :: suf).reverse = suf.reverse ++ f :: pre.reverse := by
    simp
  rw [hrevsplit]
  have hsufrev : ∀ c ∈ suf.reverse, ok c = true := by
    intro c hc
    exact hsuf c (List.mem_reverse.mp hc)
  rw [notifyAux_ok_run ok suf.reverse hsufrev (f :: pre.reverse) [] []]
  simp only [notifyAux, hf, Bool.false_eq_true, if_neg, not_false_iff]
  refine ⟨by simp, by simp, ?_⟩
  simpa using membersOf_setEntry_self (getItem s r).2 r pre.reverse.reverse

theorem notifyAux_not_mem (ok : Conn → Bool) (x : Conn) (popOrder living delivered : List Conn)
    (h1 : x ∉ popOrder) (h2 : x ∉ living) (h3 : x ∉ delivered) :
    x ∉ (notifyAux ok popOrder living delivered).members ∧
    x ∉ (notifyAux ok popOrder living delivered).delivered := by
  induction popOrder generalizing living delivered with
  | nil => exact ⟨h2, h3⟩
  | cons c rest ih =>
    have hxc : x ≠ c := fun h => h1 (h ▸ List.mem_cons_self c rest)
    have hrest : x ∉ rest := fun h => h1 (List.mem_cons_of_mem c h)
    by_cases hc : ok c = true
    · simp only [notifyAux, hc, if_pos]
      exact ih (living ++ [c]) (delivered ++ [c])
        hrest (by simp [h2, hxc]) (by simp [h3, hxc])
    · simp only [notifyAux, hc, if_neg, not_false_iff]
      exact ⟨by simpa using hrest, h3⟩

theorem notify_not_mem (s : Notifier) (r : RoomName) (ok : Conn → Bool) (x : Conn)
    (h : x ∉ membersOf s r) :
    x ∉ (s.notify r ok).2.1 ∧ x ∉ membersOf (s.notify r ok).2.2 r := by
  simp only [Notifier.notify, notifyRoom]
  rw [getItem_fst_members]
  have hrev : x ∉ (membersOf s r).reverse := by
    simpa using h
  have hmain := notifyAux_not_mem ok x (membersOf s r).reverse [] [] hrev
    (List.not_mem_nil x) (List.not_mem_nil x)
  refine ⟨hmain.2, ?_⟩
  rw [membersOf_setEntry_self]
  exact hmain.1

theorem runBroadcasts_not_mem (s : Notifier) (r : RoomName)
    (bs : List (String × (Conn → Bool))) (x : Conn) (h : x ∉ membersOf s r) :
    x ∉ (runBroadcasts s r bs).2 ∧ x ∉ membersOf (runBroadcasts s r bs).1 r := by
  induction bs generalizing s with
  | nil => exact ⟨List.not_mem_nil x, h⟩
  | cons b rest ih =>
    cases b with
    | mk msg ok =>
      have hstep := notify_not_mem s r ok x h
      have htail := ih ((s.push msg r ok).2.2) hstep.2
      simp only [runBroadcasts, List.mem_append]
      exact ⟨fun hmem => hmem.elim (fun hh => hstep.1 hh) (fun hh => htail.1 hh), htail.2⟩

theorem getItem_of_lookup (s : Notifier) (r : RoomName) (e : Entry)
    (h : lookupAssoc s.connections r = some e) : getItem s r = (e, s) := by
  unfold getItem
  rw [h]

theorem membersOf_of_lookup (s : Notifier) (r : RoomName) (e : Entry)
    (h : lookupAssoc s.connections r = some e) : membersOf s r = e.members := by
  unfold membersOf
  rw [h]

theorem getItem_idem (s : Notifier) (r : RoomName) :
    getItem (getItem s r).2 r = ((getItem s r).1, (getItem s r).2) :=
  getItem_of_lookup _ _ _ (getItem_snd_lookup s r)

theorem remove_not_mem (s : Notifier) (c : Conn) (r : RoomName)
    (h : (membersOf s r).count c ≤ 1) : c ∉ membersOf (s.remove c r).2 r := by
  unfold Notifier.remove
  cases hl : lookupAssoc s.connections r with
  | none =>
    have he : getItem s r = (Entry.edict, ⟨s.connections ++ [(r, Entry.edict)]⟩) := by
      unfold getItem
      rw [hl]
    rw [he]
    simp only [Entry.members]
    rw [membersOf_of_lookup _ _ Entry.edict
      (by simpa [he] using getItem_snd_lookup s r)]
    simp [Entry.members]
  | some e =>
    have he : getItem s r = (e, s) := getItem_of_lookup s r e hl
    rw [he]
    have hm : membersOf s r = e.members := membersOf_of_lookup s r e hl
    cases e with
    | edict =>
      simp only
      rw [hm]
      simp [Entry.members]
    | elist l =>
      simp only [Entry.members] at hm
      by_cases hc : c ∈ l
      · simp only [hc, if_pos]
        rw [membersOf_setEntry_self]
        have h1 : l.count c = 1 := le_antisymm (hm ▸ h) (List.count_pos_iff.mpr hc)
        have h0 : (l.erase c).count c = 0 := by
          rw [List.count_erase_self, h1]
        exact List.count_eq_zero.mp h0
      · simp only [hc, if_neg, not_false_iff]
        rw [hm]
        exact hc

/-! ### Claim theorems -/

/-- C1 (counterexample): broadcasting to room "lobby" with members `[0, 1]`
where connection `1`'s send raises does NOT contain the failure: `_notify`
propagates the exception (`err = some 1`) and the other current member `0`
receives no delivery at all (`delivered = []`), contradicting the claim that
the failure is contained and delivery still occurs to every other member. -/
theorem C1_broadcast_failure_counterexample :
    ((⟨[("lobby", Entry.elist [0, 1])]⟩ : Notifier).notify "lobby" (fun c => c == 0)).1
        = some 1 ∧
    ((⟨[("lobby", Entry.elist [0, 1])]⟩ : Notifier).notify "lobby" (fun c => c == 0)).2.1
        = [] := by
  decide

/-- C1 (amended): when a member's send fails (the failing member `f` is the
last stored member with a failing transport, every member stored after it
having a working one), the broadcast raises `f`'s exception to the caller
instead of containing it; `f` is removed from membership (it was popped before
the send), the members stored after `f` received the message but are dropped
from membership as well, and the members stored before `f` remain in
membership but receive no delivery. -/
theorem C1_broadcast_failure_amended (s : Notifier) (r : RoomName) (ok : Conn → Bool)
    (pre suf : List Conn) (f : Conn)
    (hsplit : membersOf s r = pre ++ f :: suf)
    (hsuf : ∀ c ∈ suf, ok c = true) (hf : ok f = false) :
    (s.notify r ok).1 = some f ∧
    (s.notify r ok).2.1 = suf.reverse ∧
    membersOf (s.notify r ok).2.2 r = pre :=
  notify_spec_fail s r ok pre suf f hsplit hsuf hf

/-- C1 (witness): the amended statement at room "lobby" with members
`[0, 1, 2]` where `1`'s send fails: `2` is delivered, the raise propagates,
and membership afterwards is `[0]`. -/
theorem C1_broadcast_failure_amended_witness :
    membersOf (⟨[("lobby", Entry.elist [0, 1, 2])]⟩ : Notifier) "lobby" = [0] ++ 1 :: [2] ∧
    (∀ c ∈ [2], (fun c : Conn => ! (c == 1)) c = true) ∧
    (fun c : Conn => ! (c == 1)) 1 = false ∧
    (((⟨[("lobby", Entry.elist [0, 1, 2])]⟩ : Notifier).notify "lobby"
        (fun c => ! (c == 1))).1 = some 1 ∧
      ((⟨[("lobby", Entry.elist [0, 1, 2])]⟩ : Notifier).notify "lobby"
        (fun c => ! (c == 1))).2.1 = [2].reverse ∧
      membersOf ((⟨[("lobby", Entry.elist [0, 1, 2])]⟩ : Notifier).notify "lobby"
        (fun c => ! (c == 1))).2.2 "lobby" = [0]) :=
  ⟨by decide, by decide, by decide,
    C1_broadcast_failure_amended ⟨[("lobby", Entry.elist [0, 1, 2])]⟩ "lobby"
      (fun c => ! (c == 1)) [0] [2] 1 (by decide) (by decide) (by decide)⟩

/-- C2 (counterexample): room "lobby" has N = 2 members `[0, 1]` and K = 1
failing transport (connection `0`).  The claim predicts a successful broadcast
with membership of size N − K = 1 afterwards; in fact the broadcast raises
(`err = some 0`) and membership afterwards is empty (size 0 ≠ 1): the
delivered member `1` was dropped from the room along with the failing one. -/
theorem C2_delivery_count_counterexample :
    ((⟨[("lobby", Entry.elist [0, 1])]⟩ : Notifier).notify "lobby" (fun c => c == 1)).1
        = some 0 ∧
    ((⟨[("lobby", Entry.elist [0, 1])]⟩ : Notifier).notify "lobby" (fun c => c == 1)).2.1
        = [1] ∧
    (membersOf ((⟨[("lobby", Entry.elist [0, 1])]⟩ : Notifier).notify "lobby"
        (fun c => c == 1)).2.2 "lobby").length ≠ 2 - 1 := by
  decide

/-- C2 (amended): with K = 0 failing transports a broadcast performs N
deliveries and leaves membership of size N, and broadcasting to a room with
zero members succeeds with zero deliveries; but with K ≥ 1 the broadcast
raises at the last-stored failing member: only the members stored after it are
delivered, and membership afterwards keeps only those stored before it, so the
claimed counts N − K and K do not hold in general. -/
theorem C2_delivery_count_amended (s : Notifier) (r : RoomName) (ok : Conn → Bool) :
    ((∀ c ∈ membersOf s r, ok c = true) →
      (s.notify r ok).1 = none ∧
      (s.notify r ok).2.1.length = (membersOf s r).length ∧
      (membersOf (s.notify r ok).2.2 r).length = (membersOf s r).length) ∧
    (membersOf s r = [] →
      (s.notify r ok).1 = none ∧ (s.notify r ok).2.1 = []) ∧
    (∀ pre suf f, membersOf s r = pre ++ f :: suf →
      (∀ c ∈ suf, ok c = true) → ok f = false →
      (s.notify r ok).1 = some f ∧
      (s.notify r ok).2.1.length = suf.length ∧
      (membersOf (s.notify r ok).2.2 r).length = pre.length) := by
  refine ⟨?_, ?_, ?_⟩
  · intro h
    obtain ⟨h1, h2, h3⟩ := notify_spec_ok s r ok h
    exact ⟨h1, by rw [h2, List.length_reverse], by rw [h3, List.length_reverse]⟩
  · intro h
    obtain ⟨h1, h2, _⟩ := notify_spec_ok s r ok (by simp [h])
    exact ⟨h1, by rw [h2, h]; rfl⟩
  · intro pre suf f hsplit hsuf hf
    obtain ⟨h1, h2, h3⟩ := notify_spec_fail s r ok pre suf f hsplit hsuf hf
    exact ⟨h1, by rw [h2, List.length_reverse], by rw [h3]⟩

/-- C2 (witness): the amended statement at room "lobby" with members
`[0, 1, 2]`, exercising the failing branch at `f = 2` with empty working
suffix: zero deliveries and membership of size 2 remain. -/
theorem C2_delivery_count_amended_witness :
    membersOf (⟨[("lobby", Entry.elist [0, 1, 2])]⟩ : Notifier) "lobby" = [0, 1] ++ 2 :: [] ∧
    (fun c : Conn => ! (c == 2)) 2 = false ∧
    (((⟨[("lobby", Entry.elist [0, 1, 2])]⟩ : Notifier).notify "lobby"
        (fun c => ! (c == 2))).1 = some 2 ∧
      ((⟨[("lobby", Entry.elist [0, 1, 2])]⟩ : Notifier).notify "lobby"
        (fun c => ! (c == 2))).2.1.length = ([] : List Conn).length ∧
      (membersOf ((⟨[("lobby", Entry.elist [0, 1, 2])]⟩ : Notifier).notify "lobby"
        (fun c => ! (c == 2))).2.2 "lobby").length = [0, 1].length) :=
  ⟨by decide, by decide,
    (C2_delivery_count_amended ⟨[("lobby", Entry.elist [0, 1, 2])]⟩ "lobby"
        (fun c => ! (c == 2))).2.2 [0, 1] [] 2 (by decide) (by decide) (by decide)⟩

/-- C3 (counterexample): joining connection `0` to room "r" twice yields the
member list `[0, 0]`: a duplicate entry, and a member list one longer than
after joining once — `connect` never checks for prior membership. -/
theorem C3_join_idempotent_counterexample :
    membersOf (((⟨[]⟩ : Notifier).connect 0 "r").connect 0 "r") "r" = [0, 0] ∧
    (membersOf (((⟨[]⟩ : Notifier).connect 0 "r").connect 0 "r") "r").length
      ≠ (membersOf ((⟨[]⟩ : Notifier).connect 0 "r") "r").length ∧
    ¬ (membersOf (((⟨[]⟩ : Notifier).connect 0 "r").connect 0 "r") "r").Nodup := by
  decide

/-- C3 (amended): `connect` appends the connection unconditionally: every join
extends the room's member list with the connection (so joining an existing
member is not a no-op — the second join of the same connection adds a
duplicate and grows the member list by one). -/
theorem C3_join_appends_amended (s : Notifier) (c : Conn) (r : RoomName) :
    membersOf (s.connect c r) r = membersOf s r ++ [c] ∧
    (membersOf ((s.connect c r).connect c r) r).length
      = (membersOf (s.connect c r) r).length + 1 ∧
    (membersOf ((s.connect c r).connect c r) r).count c
      = (membersOf (s.connect c r) r).count c + 1 := by
  refine ⟨connect_members s c r, ?_, ?_⟩
  · rw [connect_members (s.connect c r) c r]
    simp
  · rw [connect_members (s.connect c r) c r]
    simp

/-- C4 (counterexample): `remove` of a connection that is not a member is NOT
a no-op: removing `7` from room "r" whose member list is `[5]` raises
`ValueError` (`list.remove`), and removing from a never-joined room "ghost"
raises `AttributeError` (the fresh `defaultdict` entry is a dict). -/
theorem C4_leave_absent_counterexample :
    ((⟨[("r", Entry.elist [5])]⟩ : Notifier).remove 7 "r").1 = some PyErr.valueError ∧
    ((⟨[]⟩ : Notifier).remove 7 "ghost").1 = some PyErr.attributeError := by
  decide

/-- C4 (amended): `remove` of a connection absent from the room's member set
raises an exception (`ValueError` from `list.remove`, or `AttributeError` for
a room that has never been joined); the room's member sequence itself is
unchanged by the failed call. -/
theorem C4_leave_absent_amended (s : Notifier) (c : Conn) (r : RoomName)
    (h : c ∉ membersOf s r) :
    ((s.remove c r).1).isSome = true ∧
    membersOf (s.remove c r).2 r = membersOf s r := by
  unfold Notifier.remove
  cases hl : lookupAssoc s.connections r with
  | none =>
    have he : getItem s r = (Entry.edict, ⟨s.connections ++ [(r, Entry.edict)]⟩) := by
      unfold getItem
      rw [hl]
    rw [he]
    refine ⟨rfl, ?_⟩
    rw [membersOf_of_lookup _ _ Entry.edict (by simpa [he] using getItem_snd_lookup s r)]
    unfold membersOf
    rw [hl]
    rfl
  | some e =>
    have he : getItem s r = (e, s) := getItem_of_lookup s r e hl
    have hm : membersOf s r = e.members := membersOf_of_lookup s r e hl
    rw [he]
    cases e with
    | edict => exact ⟨rfl, rfl⟩
    | elist l =>
      have hcl : c ∉ l := by
        rw [hm] at h
        exact h
      simp only [hcl, if_neg, not_false_iff]
      exact ⟨rfl, trivial⟩

/-- C4 (witness): the amended statement at the concrete never-joined member
`7` of room "r" with member list `[5]`. -/
theorem C4_leave_absent_amended_witness :
    (7 : Conn) ∉ membersOf (⟨[("r", Entry.elist [5])]⟩ : Notifier) "r" ∧
    ((((⟨[("r", Entry.elist [5])]⟩ : Notifier).remove 7 "r").1).isSome = true ∧
      membersOf ((⟨[("r", Entry.elist [5])]⟩ : Notifier).remove 7 "r").2 "r"
        = membersOf (⟨[("r", Entry.elist [5])]⟩ : Notifier) "r") :=
  ⟨by decide, C4_leave_absent_amended ⟨[("r", Entry.elist [5])]⟩ 7 "r" (by decide)⟩

/-- C5: `get_members` on a room name that has never been joined does not fail:
the `defaultdict` access succeeds (the `except ... return None` branch is
dead), and the returned collection is empty. -/
theorem C5_members_unknown_room (s : Notifier) (r : RoomName)
    (h : lookupAssoc s.connections r = none) :
    ∃ e, (s.get_members r).1 = some e ∧ e.members = [] := by
  have he : getItem s r = (Entry.edict, ⟨s.connections ++ [(r, Entry.edict)]⟩) := by
    unfold getItem
    rw [h]
  refine ⟨Entry.edict, ?_, rfl⟩
  simp [Notifier.get_members, he]

/-- C5 (witness): querying the never-joined room "ghost" of a registry that
only knows room "a". -/
theorem C5_members_unknown_room_witness :
    lookupAssoc (⟨[("a", Entry.elist [1])]⟩ : Notifier).connections "ghost" = none ∧
    ∃ e, ((⟨[("a", Entry.elist [1])]⟩ : Notifier).get_members "ghost").1 = some e ∧
      e.members = [] :=
  ⟨by decide, C5_members_unknown_room ⟨[("a", Entry.elist [1])]⟩ "ghost" (by decide)⟩

/-- C6: after the disconnect handler runs (`notifier.remove` on a room where
the connection appears at most once, as the endpoint flow maintains), the
connection is absent from the room's members, and any subsequent sequence of
broadcasts to that room neither delivers to it nor re-admits it. -/
theorem C6_disconnect_no_further_delivery (s : Notifier) (ws : Conn) (room : RoomName)
    (h : (membersOf s room).count ws ≤ 1) :
    ws ∉ membersOf (sessionDisconnect s ws room).2 room ∧
    ∀ bs : List (String × (Conn → Bool)),
      ws ∉ (runBroadcasts (sessionDisconnect s ws room).2 room bs).2 ∧
      ws ∉ membersOf (runBroadcasts (sessionDisconnect s ws room).2 room bs).1 room := by
  have habs : ws ∉ membersOf (sessionDisconnect s ws room).2 room :=
    remove_not_mem s ws room h
  exact ⟨habs, fun bs => runBroadcasts_not_mem _ room bs ws habs⟩

/-- C6 (witness): connection `7` disconnects from room "r" with members
`[7, 8]`; after one further broadcast it receives nothing and stays absent. -/
theorem C6_disconnect_no_further_delivery_witness :
    (membersOf (⟨[("r", Entry.elist [7, 8])]⟩ : Notifier) "r").count 7 ≤ 1 ∧
    (7 : Conn) ∉ membersOf (sessionDisconnect ⟨[("r", Entry.elist [7, 8])]⟩ 7 "r").2 "r" ∧
    (7 : Conn) ∉ (runBroadcasts (sessionDisconnect ⟨[("r", Entry.elist [7, 8])]⟩ 7 "r").2 "r"
        [("bye", fun _ => true)]).2 ∧
    (7 : Conn) ∉ membersOf (runBroadcasts
        (sessionDisconnect ⟨[("r", Entry.elist [7, 8])]⟩ 7 "r").2 "r"
        [("bye", fun _ => true)]).1 "r" := by
  have h := C6_disconnect_no_further_delivery ⟨[("r", Entry.elist [7, 8])]⟩ 7 "r" (by decide)
  exact ⟨by decide, h.1, (h.2 [("bye", fun _ => true)]).1, (h.2 [("bye", fun _ => true)]).2⟩

/-- C7: one iteration of the session loop emits exactly the store call with
arguments `(d.message, d.sender, room)` followed by (hence before) the
broadcast of the original inbound payload `data` verbatim. -/
theorem C7_store_then_broadcast_verbatim (s : Notifier) (ws : Conn) (room : RoomName)
    (data : String) (d : Inbound) (ok : Conn → Bool) :
    (sessionIteration s ws room data d ok).events
      = [Event.store d.message d.sender room, Event.broadcast data room] := rfl

/-- C8: after the self-healing check of the session loop, the session's
connection is a member of its room, and the broadcast of that iteration is
performed from exactly that self-healed state — so the connection is a member
at the moment the broadcast runs. -/
theorem C8_selfheal_membership (s : Notifier) (ws : Conn) (room : RoomName)
    (data : String) (d : Inbound) (ok : Conn → Bool) :
    ws ∈ membersOf (selfHeal s ws room) room ∧
    (sessionIteration s ws room data d ok).delivered
      = ((selfHeal s ws room).push data room ok).2.1 := by
  refine ⟨?_, rfl⟩
  simp only [selfHeal, Notifier.get_members]
  rw [getItem_idem s room]
  simp only [Option.isSome_some, if_true]
  by_cases hmem : ws ∈ (getItem s room).1.members
  · simp only [hmem, if_pos]
    rw [membersOf_of_lookup _ _ _ (getItem_snd_lookup s room)]
    exact hmem
  · simp only [hmem, if_neg, not_false_iff]
    rw [connect_members]
    simp

/-- C9: `get_members` on a room name with no registry entry is not read-only:
the `defaultdict` subscript appends a fresh `(room, empty-dict)` entry to the
registry (so the state changes), while the entries of all other rooms are
untouched. -/
theorem C9_get_members_mutation (s : Notifier) (r : RoomName)
    (h : lookupAssoc s.connections r = none) :
    (s.get_members r).2.connections = s.connections ++ [(r, Entry.edict)] ∧
    (s.get_members r).2 ≠ s ∧
    lookupAssoc (s.get_members r).2.connections r = some Entry.edict ∧
    ∀ r2, r2 ≠ r →
      lookupAssoc (s.get_members r).2.connections r2 = lookupAssoc s.connections r2 := by
  have he : getItem s r = (Entry.edict, ⟨s.connections ++ [(r, Entry.edict)]⟩) := by
    unfold getItem
    rw [h]
  have hconn : (s.get_members r).2 = ⟨s.connections ++ [(r, Entry.edict)]⟩ := by
    simp [Notifier.get_members, he]
  refine ⟨by rw [hconn], ?_, ?_, ?_⟩
  · rw [hconn]
    intro hEq
    have h2 : s.connections ++ [(r, Entry.edict)] = s.connections :=
      congrArg Notifier.connections hEq
    have h3 := congrArg List.length h2
    simp at h3
  · rw [hconn]
    exact lookup_append_single s.connections r Entry.edict h
  · intro r2 hr2
    have hne := getItem_snd_lookup_ne s r r2 hr2
    rw [he] at hne
    rw [hconn]
    exact hne

/-- C9 (witness): querying the unknown room "b" of a registry knowing only
room "a" appends a fresh empty entry for "b" and leaves "a" unchanged. -/
theorem C9_get_members_mutation_witness :
    lookupAssoc (⟨[("a", Entry.elist [1])]⟩ : Notifier).connections "b" = none ∧
    ((⟨[("a", Entry.elist [1])]⟩ : Notifier).get_members "b").2.connections
      = [("a", Entry.elist [1])] ++ [("b", Entry.edict)] ∧
    lookupAssoc ((⟨[("a", Entry.elist [1])]⟩ : Notifier).get_members "b").2.connections "b"
      = some Entry.edict ∧
    lookupAssoc ((⟨[("a", Entry.elist [1])]⟩ : Notifier).get_members "b").2.connections "a"
      = lookupAssoc (⟨[("a", Entry.elist [1])]⟩ : Notifier).connections "a" := by
  have h := C9_get_members_mutation ⟨[("a", Entry.elist [1])]⟩ "b" (by decide)
  exact ⟨by decide, h.1, h.2.2.1, h.2.2.2 "a" (by decide)⟩

/-- C10: a broadcast in which every send succeeds delivers to the members in
reverse order of the stored membership list and leaves the room's membership
equal to the reverse of what it was before. -/
theorem C10_all_success_reverses (s : Notifier) (r : RoomName) (ok : Conn → Bool)
    (h : ∀ c ∈ membersOf s r, ok c = true) :
    (s.notify r ok).1 = none ∧
    (s.notify r ok).2.1 = (membersOf s r).reverse ∧
    membersOf (s.notify r ok).2.2 r = (membersOf s r).reverse :=
  notify_spec_ok s r ok h

/-- C10 (witness): broadcasting to room "r" with members `[1, 2, 3]` and all
sends succeeding delivers in order `[3, 2, 1]` and stores `[3, 2, 1]`. -/
theorem C10_all_success_reverses_witness :
    (∀ c ∈ membersOf (⟨[("r", Entry.elist [1, 2, 3])]⟩ : Notifier) "r",
      (fun _ : Conn => true) c = true) ∧
    (((⟨[("r", Entry.elist [1, 2, 3])]⟩ : Notifier).notify "r" (fun _ => true)).1 = none ∧
      ((⟨[("r", Entry.elist [1, 2, 3])]⟩ : Notifier).notify "r" (fun _ => true)).2.1
        = (membersOf (⟨[("r", Entry.elist [1, 2, 3])]⟩ : Notifier) "r").reverse ∧
      membersOf ((⟨[("r", Entry.elist [1, 2, 3])]⟩ : Notifier).notify "r"
        (fun _ => true)).2.2 "r"
        = (membersOf (⟨[("r", Entry.elist [1, 2, 3])]⟩ : Notifier) "r").reverse) :=
  ⟨by decide, C10_all_success_reverses ⟨[("r", Entry.elist [1, 2, 3])]⟩ "r"
    (fun _ => true) (by decide)⟩

end ChatApp
